import Mathlib

/-
  Verification development for the antsol ledger-scanning and event-ingestion
  pipeline (crate antsol-indexer-v2).  The Rust sources are shallowly embedded:
  strings are lists of characters (the log lines of interest are ASCII, so Rust
  byte indices coincide with character indices and Unicode case folding agrees
  with ASCII case folding), database tables are lists of rows, and each SQL
  statement of src/db/queries.rs becomes a pure state transformer.  Timestamps
  are abstract natural numbers supplied as an explicit clock argument where the
  SQL uses NOW().  Fallible database calls that the Rust code only logs and
  swallows are embedded as total functions, matching the fact that the Rust
  functions in question return Ok in every such path; the one place where a
  partial failure is observable (the dual counter update) carries an explicit
  failure oracle.  Column defaults absent from src (the migration file is not
  part of the sources) follow the data model of the specification: counters
  start at zero and creation timestamps are set at insertion time.
-/

namespace Antsol

/-- Strings are modelled as lists of characters. -/
abbrev Str := List Char

/-- Boolean prefix test, mirroring Rust str::starts_with on strings. -/
def isPrefix : Str → Str → Bool
  | [], _ => true
  | _ :: _, [] => false
  | a :: as, b :: bs => a == b && isPrefix as bs

/-- Index of the first occurrence of a substring, as Rust str::find with a
string pattern (byte index, which equals character index on ASCII input). -/
def findSub : Str → Str → Option Nat
  | [], pat => if pat.isEmpty then some 0 else none
  | c :: rest, pat =>
    if isPrefix pat (c :: rest) then some 0
    else (findSub rest pat).map (· + 1)

/-- Boolean substring test, as Rust str::contains. -/
def containsSub (hay pat : Str) : Bool := (findSub hay pat).isSome

/-- Index of the first character satisfying a predicate, as Rust str::find
with a closure pattern. -/
def findCharP (p : Char → Bool) : Str → Option Nat
  | [] => none
  | c :: rest => if p c then some 0 else (findCharP p rest).map (· + 1)

/-- Index of the last occurrence of a character, as Rust str::rfind. -/
def rfindChar (ch : Char) : Str → Option Nat
  | [] => none
  | c :: rest =>
    match rfindChar ch rest with
    | some i => some (i + 1)
    | none => if c == ch then some 0 else none

/-- Whitespace trimming from both ends, as Rust str::trim. -/
def trimStr (s : Str) : Str :=
  ((s.dropWhile Char.isWhitespace).reverse.dropWhile Char.isWhitespace).reverse

/-- Removal of leading and trailing characters drawn from a set, as Rust
str::trim_matches with a char-slice pattern. -/
def trimMatchesP (p : Char → Bool) (s : Str) : Str :=
  ((s.dropWhile p).reverse.dropWhile p).reverse

/-- Lowercasing, as Rust str::to_lowercase restricted to ASCII, where it is
character-by-character and length preserving. -/
def toLowerStr (s : Str) : Str := s.map Char.toLower

/-- First whitespace-separated token, as Rust split_whitespace().next(). -/
def splitWhitespaceNext (s : Str) : Option Str :=
  let t := s.dropWhile Char.isWhitespace
  if t = [] then none else some (t.takeWhile (fun c => !c.isWhitespace))

/-- Splitting on a character predicate keeping empty pieces, as Rust
str::split with a closure pattern. -/
def splitOnP (p : Char → Bool) : Str → List Str
  | [] => [[]]
  | c :: rest =>
    match splitOnP p rest with
    | [] => if p c then [[], []] else [[c]]
    | h :: t => if p c then [] :: h :: t else (c :: h) :: t

/-! ### Event Parser (src/indexer/parser.rs)

Structured domain event produced by the parser.  The Rust struct carries a
database id field that parse_transaction always sets to zero; block times are
kept as raw optional unix seconds (the Rust code converts them to DateTime
values, a bijective renaming on the timestamps the claims mention). -/

structure Event where
  id : Int
  event_type : Str
  package_name : Str
  version : Option Str
  transaction_signature : Str
  slot : Int
  block_time : Option Int
deriving DecidableEq, Repr

/-- Guard shared by every extraction strategy, capturing the Rust idiom
that a trimmed value is returned only when it is non-empty. -/
def guardNonEmpty (value : Str) : Option Str :=
  if value = [] then none else some value

/-- Embedding of parser.rs try_extract_json_field for one of its two
patterns: quote, field, quote, colon, optionally a trailing space. -/
def tryJsonPattern (log pat : Str) (skip : Nat) : Option Str :=
  match findSub log pat with
  | some start =>
    match findCharP (· == '"') (log.drop (start + skip)) with
    | some valueStart =>
      match findCharP (· == '"') ((log.drop (start + skip)).drop (valueStart + 1)) with
      | some valueEnd =>
        guardNonEmpty (trimStr (((log.drop (start + skip)).drop (valueStart + 1)).take valueEnd))
      | none => none
    | none => none
  | none => none

/-- Embedding of parser.rs try_extract_json_field. -/
def tryExtractJsonField (log field : Str) : Option Str :=
  match tryJsonPattern log ('"' :: field ++ ['"', ':']) (field.length + 3) with
  | some v => some v
  | none => tryJsonPattern log ('"' :: field ++ ['"', ':', ' ']) (field.length + 4)

/-- Embedding of parser.rs try_extract_kv_field. -/
def tryExtractKvField (log field : Str) : Option Str :=
  match findSub log (field ++ ['=']) with
  | some start =>
    if (log.drop (start + field.length + 1)).head? == some '"'
        || (log.drop (start + field.length + 1)).head? == some '\x27' then
      match (log.drop (start + field.length + 1)).head? with
      | some quote =>
        match findCharP (· == quote) ((log.drop (start + field.length + 1)).drop 1) with
        | some valueEnd =>
          guardNonEmpty (trimStr (((log.drop (start + field.length + 1)).drop 1).take valueEnd))
        | none => none
      | none => none
    else
      match findCharP (fun c => c.isWhitespace || c == ',' || c == '\x7d' || c == ')' || c == ']')
          (log.drop (start + field.length + 1)) with
      | some e => guardNonEmpty (trimStr ((log.drop (start + field.length + 1)).take e))
      | none => guardNonEmpty (trimStr (log.drop (start + field.length + 1)))
  | none => none

/-- Embedding of parser.rs try_extract_colon_field. -/
def tryExtractColonField (log field : Str) : Option Str :=
  match findSub log (field ++ [':', ' ']) with
  | some start =>
    if (log.drop (start + field.length + 2)).head? == some '"'
        || (log.drop (start + field.length + 2)).head? == some '\x27' then
      match (log.drop (start + field.length + 2)).head? with
      | some quote =>
        match findCharP (· == quote) ((log.drop (start + field.length + 2)).drop 1) with
        | some valueEnd =>
          guardNonEmpty (trimStr (((log.drop (start + field.length + 2)).drop 1).take valueEnd))
        | none => none
      | none => none
    else
      match findCharP (fun c => c.isWhitespace || c == ',') (log.drop (start + field.length + 2)) with
      | some e => guardNonEmpty (trimStr ((log.drop (start + field.length + 2)).take e))
      | none => guardNonEmpty (trimStr (log.drop (start + field.length + 2)))
  | none => none

/-- One pattern of parser.rs try_extract_structured_field. -/
def tryStructuredPattern (log pat : Str) : Option Str :=
  match findSub log pat with
  | some start =>
    match findCharP (fun c => c == '\n' || c == '\r') (log.drop (start + pat.length)) with
    | some e => guardNonEmpty (trimStr ((log.drop (start + pat.length)).take e))
    | none => guardNonEmpty (trimStr (log.drop (start + pat.length)))
  | none => none

/-- Prefix of Anchor style program log lines. -/
def programLogPrefix : Str := ("Program log: ").data

/-- Prefix of Anchor style program data lines. -/
def programDataPrefix : Str := ("Program data: ").data

/-- Embedding of parser.rs try_extract_structured_field. -/
def tryExtractStructuredField (log field : Str) : Option Str :=
  match tryStructuredPattern log (programLogPrefix ++ field ++ [' ']) with
  | some v => some v
  | none => tryStructuredPattern log (programDataPrefix ++ field ++ [' '])

/-- Embedding of parser.rs extract_field: the four extraction patterns tried
in order, first success wins. -/
def extract_field (log field : Str) : Option Str :=
  match tryExtractJsonField log field with
  | some v => some v
  | none =>
    match tryExtractKvField log field with
    | some v => some v
    | none =>
      match tryExtractColonField log field with
      | some v => some v
      | none => tryExtractStructuredField log field

/-- The remainder after the last colon of the line, trimmed and stripped of
leading characters that are not alphanumeric, dash or underscore, as
computed by try_extract_at_format. -/
def atCleaned (log : Str) (colonPos : Nat) : Str :=
  (trimStr (log.drop (colonPos + 1))).dropWhile (fun c => !c.isAlphanum && c != '-' && c != '_')

/-- Embedding of parser.rs try_extract_at_format. -/
def tryExtractAtFormat (log : Str) : Option (Str × Option Str) :=
  match rfindChar ':' log with
  | some colonPos =>
    match findCharP (· == '@') (atCleaned log colonPos) with
    | some atPos =>
      if trimStr ((atCleaned log colonPos).take atPos) ≠ []
          && (splitWhitespaceNext ((atCleaned log colonPos).drop (atPos + 1))).isSome then
        some (trimStr ((atCleaned log colonPos).take atPos),
          splitWhitespaceNext ((atCleaned log colonPos).drop (atPos + 1)))
      else none
    | none => none
  | none => none

/-- Field name package. -/
def fieldPackage : Str := ("package").data
/-- Field name name. -/
def fieldName : Str := ("name").data
/-- Field name pkg. -/
def fieldPkg : Str := ("pkg").data
/-- Field name version. -/
def fieldVersion : Str := ("version").data
/-- Field name ver. -/
def fieldVer : Str := ("ver").data
/-- Field name event. -/
def fieldEvent : Str := ("event").data

/-- The name extraction chain of extract_package_info: the fields package,
name, pkg tried in order. -/
def extractNameField (log : Str) : Option Str :=
  match extract_field log fieldPackage with
  | some v => some v
  | none =>
    match extract_field log fieldName with
    | some v => some v
    | none => extract_field log fieldPkg

/-- The version extraction chain of extract_package_info: the fields
version, ver tried in order. -/
def extractVersionField (log : Str) : Option Str :=
  match extract_field log fieldVersion with
  | some v => some v
  | none => extract_field log fieldVer

/-- Embedding of parser.rs extract_package_info. -/
def extract_package_info (log : Str) : Option (Str × Option Str) :=
  match tryExtractAtFormat log with
  | some r => some r
  | none =>
    match extractNameField log with
    | some packageName => some (packageName, extractVersionField log)
    | none => none

/-- Event type string PackagePublished. -/
def tyPublished : Str := ("PackagePublished").data
/-- Event type string PackageUpdated. -/
def tyUpdated : Str := ("PackageUpdated").data
/-- Event type string PackageDownloaded. -/
def tyDownloaded : Str := ("PackageDownloaded").data

/-- Marker substring for publish events. -/
def markPub1 : Str := ("packagepublished").data
/-- Marker substring for publish instructions. -/
def markPub2 : Str := ("instruction: publish").data
/-- Marker substring for publish program logs. -/
def markPub3 : Str := ("program log: publish").data
/-- Marker substring for package published lines. -/
def markPub4 : Str := ("package published:").data
/-- Marker substring for update events. -/
def markUpd1 : Str := ("packageupdated").data
/-- Marker substring for update instructions. -/
def markUpd2 : Str := ("instruction: update").data
/-- Marker substring for update program logs. -/
def markUpd3 : Str := ("program log: update").data
/-- Marker substring for download events. -/
def markDown1 : Str := ("packagedownloaded").data
/-- Marker substring for download instructions. -/
def markDown2 : Str := ("instruction: download").data
/-- Marker substring for download program logs. -/
def markDown3 : Str := ("program log: download").data

/-- Marker test of the publish pattern of parse_transaction, applied to the
lowercased line. -/
def pubMarker (logLower : Str) : Bool :=
  containsSub logLower markPub1 || containsSub logLower markPub2
    || containsSub logLower markPub3 || containsSub logLower markPub4

/-- Marker test of the update pattern of parse_transaction. -/
def updMarker (logLower : Str) : Bool :=
  containsSub logLower markUpd1 || containsSub logLower markUpd2
    || containsSub logLower markUpd3

/-- Marker test of the download pattern of parse_transaction. -/
def downMarker (logLower : Str) : Bool :=
  containsSub logLower markDown1 || containsSub logLower markDown2
    || containsSub logLower markDown3

/-- One pattern block of parse_transaction: when the marker matched, an
event of the given type is produced exactly when package info extraction
succeeds; otherwise control falls through to the next pattern. -/
def tryEventPattern (marker : Bool) (ty : Str) (log sig : Str) (slot : Int)
    (blockTime : Option Int) : Option Event :=
  if marker then
    (extract_package_info log).map (fun i => Event.mk 0 ty i.1 i.2 sig slot blockTime)
  else none

/-- Embedding of parser.rs parse_transaction: the four event patterns tried
in priority order; a pattern whose marker matches but whose package info does
not extract falls through to the next pattern, exactly as the Rust control
flow does. -/
def parse_transaction (log sig : Str) (slot : Int) (blockTime : Option Int) : Option Event :=
  match tryEventPattern (pubMarker (toLowerStr log)) tyPublished log sig slot blockTime with
  | some e => some e
  | none =>
    match tryEventPattern (updMarker (toLowerStr log)) tyUpdated log sig slot blockTime with
    | some e => some e
    | none =>
      match tryEventPattern (downMarker (toLowerStr log)) tyDownloaded log sig slot blockTime with
      | some e => some e
      | none =>
        match extract_field log fieldEvent with
        | some eventType =>
          (extract_package_info log).map
            (fun i => Event.mk 0 eventType i.1 i.2 sig slot blockTime)
        | none => none

/-! ### Content address extraction (src/indexer/listener.rs extract_ipfs_hash) -/

/-- Characters stripped from candidate ends by extract_ipfs_hash. -/
def ipfsTrimChar (c : Char) : Bool :=
  c == '"' || c == '\x27' || c == ',' || c == ';' || c == ']' || c == '\x7d'

/-- Separator characters of the fallback token scan. -/
def ipfsSepChar (c : Char) : Bool :=
  c.isWhitespace || c == ',' || c == ';'

/-- Characters terminating an unquoted candidate value. -/
def ipfsEndChar (c : Char) : Bool :=
  c.isWhitespace || c == ',' || c == '"' || c == '\n'

/-- The candidate value cut out of the original line at the given position:
the text up to the first terminator, whitespace trimmed and then stripped of
quote and bracket characters at both ends. -/
def ipfsCandidateAt (log : Str) (pos skip : Nat) : Str :=
  trimMatchesP ipfsTrimChar (trimStr ((log.drop (pos + skip)).take
    ((findCharP ipfsEndChar (log.drop (pos + skip))).getD (log.drop (pos + skip)).length)))

/-- One keyed probe of extract_ipfs_hash: the pattern is searched in the
lowercased line, the candidate is cut from the original line at the same
index (the two agree because ASCII lowercasing preserves positions), and it
is accepted only when at least 46 characters long. -/
def ipfsKeyCandidate (log lower pat : Str) (skip : Nat) : Option Str :=
  match findSub lower pat with
  | some pos =>
    if 46 ≤ (ipfsCandidateAt log pos skip).length then some (ipfsCandidateAt log pos skip)
    else none
  | none => none

/-- Both probe forms for one key: first key=value, then key: value. -/
def ipfsTryKey (log lower key : Str) : Option Str :=
  match ipfsKeyCandidate log lower (key ++ ['=']) (key.length + 1) with
  | some c => some c
  | none => ipfsKeyCandidate log lower (key ++ [':', ' ']) (key.length + 2)

/-- Key ipfs_hash. -/
def keyIpfsHash : Str := ("ipfs_hash").data
/-- Key ipfs. -/
def keyIpfs : Str := ("ipfs").data
/-- Key cid. -/
def keyCid : Str := ("cid").data
/-- CIDv0 prefix Qm. -/
def qmPrefix : Str := ("Qm").data

/-- Keyed part of extract_ipfs_hash: the keys ipfs_hash, ipfs, cid in order,
each with both probe forms. -/
def extract_ipfs_keyed (log : Str) : Option Str :=
  match ipfsTryKey log (toLowerStr log) keyIpfsHash with
  | some c => some c
  | none =>
    match ipfsTryKey log (toLowerStr log) keyIpfs with
    | some c => some c
    | none => ipfsTryKey log (toLowerStr log) keyCid

/-- Fallback scan of extract_ipfs_hash over separator-delimited tokens:
the first token that, after end trimming, starts with Qm and has length in
the interval from 46 to 60. -/
def qmFallback : List Str → Option Str
  | [] => none
  | part :: rest =>
    if isPrefix qmPrefix (trimMatchesP ipfsTrimChar part)
        && 46 ≤ (trimMatchesP ipfsTrimChar part).length
        && (trimMatchesP ipfsTrimChar part).length ≤ 60 then
      some (trimMatchesP ipfsTrimChar part)
    else qmFallback rest

/-- Embedding of listener.rs extract_ipfs_hash. -/
def extract_ipfs_hash (log : Str) : Option Str :=
  match extract_ipfs_keyed log with
  | some c => some c
  | none => qmFallback (splitOnP ipfsSepChar log)

/-! ### Durable store model (src/db/queries.rs)

Each table is a list of rows; the ON CONFLICT clauses of the SQL determine
the upsert behaviour.  Serial ids are drawn from explicit counters.  The
migration file is not part of the sources; following the data model of the
specification, counters start at zero and created_at is set at insertion. -/

structure PackageRow where
  id : Nat
  name : Str
  author : Str
  description : Option Str
  repository : Option Str
  homepage : Option Str
  total_downloads : Nat
  created_at : Nat
  updated_at : Nat
deriving DecidableEq, Repr

structure VersionRow where
  id : Nat
  package_id : Nat
  version : Str
  ipfs_hash : Str
  downloads : Nat
  published_at : Nat
deriving DecidableEq, Repr

structure EventRow where
  event_type : Str
  package_name : Str
  version : Option Str
  transaction_signature : Str
  slot : Int
  block_time : Option Int
deriving DecidableEq, Repr

structure DB where
  packages : List PackageRow
  versions : List VersionRow
  events : List EventRow
  nextPackageId : Nat
  nextVersionId : Nat
deriving DecidableEq, Repr

/-- Embedding of queries.rs insert_package: insert, or on a name conflict
overwrite author, description, repository and homepage and refresh
updated_at, returning the row id. -/
def insert_package (db : DB) (now : Nat) (name author : Str)
    (description repository homepage : Option Str) : DB × Nat :=
  match db.packages.find? (fun p => p.name == name) with
  | some p =>
    ({ db with packages := db.packages.map (fun q =>
        if q.name == name then
          { q with author := author, description := description,
                   repository := repository, homepage := homepage,
                   updated_at := now }
        else q) }, p.id)
  | none =>
    ({ db with
        packages := db.packages ++
          [⟨db.nextPackageId, name, author, description, repository, homepage, 0, now, now⟩],
        nextPackageId := db.nextPackageId + 1 }, db.nextPackageId)

/-- Embedding of queries.rs insert_version: insert, or on a
(package_id, version) conflict overwrite ipfs_hash, returning the row id. -/
def insert_version (db : DB) (package_id : Nat) (version ipfs_hash : Str) (now : Nat) : DB × Nat :=
  match db.versions.find? (fun v => v.package_id == package_id && v.version == version) with
  | some v =>
    ({ db with versions := db.versions.map (fun w =>
        if w.package_id == package_id && w.version == version then
          { w with ipfs_hash := ipfs_hash }
        else w) }, v.id)
  | none =>
    ({ db with
        versions := db.versions ++ [⟨db.nextVersionId, package_id, version, ipfs_hash, 0, now⟩],
        nextVersionId := db.nextVersionId + 1 }, db.nextVersionId)

/-- Embedding of queries.rs insert_event: ON CONFLICT on the transaction
signature DO NOTHING.  On a conflict the RETURNING clause yields no row and
the Rust function maps that to Ok with id zero, so the caller cannot tell a
duplicate from a fresh insert by the Result constructor alone. -/
def insert_event (db : DB) (event_type package_name : Str) (version : Option Str)
    (transaction_signature : Str) (slot : Int) (block_time : Option Int) : DB × Nat :=
  if db.events.any (fun e => e.transaction_signature == transaction_signature) then
    (db, 0)
  else
    ({ db with events := db.events ++
        [⟨event_type, package_name, version, transaction_signature, slot, block_time⟩] },
     db.events.length + 1)

/-- Embedding of queries.rs get_package_id. -/
def get_package_id (db : DB) (name : Str) : Option Nat :=
  (db.packages.find? (fun p => p.name == name)).map (fun p => p.id)

/-- Embedding of queries.rs get_version_id. -/
def get_version_id (db : DB) (package_id : Nat) (version : Str) : Option Nat :=
  (db.versions.find? (fun v => v.package_id == package_id && v.version == version)).map (fun v => v.id)

/-- The first UPDATE statement of queries.rs increment_download: add one to
total_downloads of the package row with the given id. -/
def incPackagesDownload (db : DB) (package_id : Nat) : DB :=
  { db with packages := db.packages.map (fun p =>
      if p.id == package_id then { p with total_downloads := p.total_downloads + 1 } else p) }

/-- The second UPDATE statement of queries.rs increment_download: add one to
downloads of the version row with the given id. -/
def incVersionsDownload (db : DB) (version_id : Nat) : DB :=
  { db with versions := db.versions.map (fun v =>
      if v.id == version_id then { v with downloads := v.downloads + 1 } else v) }

/-- Embedding of queries.rs increment_download with an explicit failure
oracle per statement: the function issues two separate UPDATE statements on
one connection with no surrounding transaction, so when the first statement
succeeds and the second fails the package counter stays incremented.  The
returned flag is the success of the whole call. -/
def increment_download_run (db : DB) (package_id version_id : Nat) (ok1 ok2 : Bool) : DB × Bool :=
  if !ok1 then (db, false)
  else if !ok2 then (incPackagesDownload db package_id, false)
  else (incVersionsDownload (incPackagesDownload db package_id) version_id, true)

/-- Failure-free run of increment_download. -/
def increment_download (db : DB) (package_id version_id : Nat) : DB :=
  (increment_download_run db package_id version_id true true).1

/-! ### Ingestion Engine (src/indexer/listener.rs ingest_event) -/

/-- Placeholder author string and sentinel for a missing content address. -/
def unknownStr : Str := ("unknown").data

/-- The Published arm of listener.rs ingest_event: upsert the package (only
when the event carries a version) and, when a content address was extracted,
upsert the version with it.  The Rust code computes the content address
first and compares it against the sentinel string unknown. -/
def ingestPublished (db : DB) (now : Nat) (ev : Event) (log : Str) : DB :=
  match ev.version with
  | some ver =>
    if (extract_ipfs_hash log).getD unknownStr ≠ unknownStr then
      (insert_version (insert_package db now ev.package_name unknownStr none none none).1
        (insert_package db now ev.package_name unknownStr none none none).2
        ver ((extract_ipfs_hash log).getD unknownStr) now).1
    else (insert_package db now ev.package_name unknownStr none none none).1
  | none => db

/-- The Updated arm of listener.rs ingest_event: resolve the existing
package id, creating the package defensively only when absent, then upsert
the version when a content address was extracted. -/
def ingestUpdated (db : DB) (now : Nat) (ev : Event) (log : Str) : DB :=
  match ev.version with
  | some ver =>
    match get_package_id db ev.package_name with
    | some id =>
      if (extract_ipfs_hash log).getD unknownStr ≠ unknownStr then
        (insert_version db id ver ((extract_ipfs_hash log).getD unknownStr) now).1
      else db
    | none =>
      if (extract_ipfs_hash log).getD unknownStr ≠ unknownStr then
        (insert_version (insert_package db now ev.package_name unknownStr none none none).1
          (insert_package db now ev.package_name unknownStr none none none).2
          ver ((extract_ipfs_hash log).getD unknownStr) now).1
      else (insert_package db now ev.package_name unknownStr none none none).1
  | none => db

/-- The Downloaded arm of listener.rs ingest_event: resolve package and
version; only when both resolve are the two counters incremented, and no
row is ever created. -/
def ingestDownloaded (db : DB) (ev : Event) : DB :=
  match ev.version with
  | some ver =>
    match get_package_id db ev.package_name with
    | some pkgId =>
      match get_version_id db pkgId ver with
      | some verId => increment_download db pkgId verId
      | none => db
    | none => db
  | none => db

/-- Embedding of listener.rs ingest_event.  The Rust function returns Ok in
every path, logging and swallowing every inner database error; the embedding
is therefore a total state transformer.  Any event type other than the three
known ones mutates nothing. -/
def ingest_event (db : DB) (now : Nat) (ev : Event) (log : Str) : DB :=
  if ev.event_type == tyPublished then ingestPublished db now ev log
  else if ev.event_type == tyUpdated then ingestUpdated db now ev log
  else if ev.event_type == tyDownloaded then ingestDownloaded db ev
  else db

/-- Resolution of a Downloaded event to its package and version row ids, as
performed inline by the Downloaded branch of ingest_event. -/
def resolveDownload (db : DB) (ev : Event) : Option (Nat × Nat) :=
  match ev.version with
  | none => none
  | some ver =>
    match get_package_id db ev.package_name with
    | none => none
    | some pkgId => (get_version_id db pkgId ver).map (fun verId => (pkgId, verId))

/-- Handling of one candidate log line, shared verbatim by process_slot in
listener.rs and by ingest_log_handler in api/handlers.rs: parse, store the
event row, then run the ingestion helper.  Because insert_event returns Ok
even on a duplicate signature, the Ok branch of both callers runs the
ingestion helper again on a replayed line. -/
def handle_log (db : DB) (now : Nat) (log sig : Str) (slot : Int) (blockTime : Option Int) : DB :=
  match parse_transaction log sig slot blockTime with
  | none => db
  | some ev =>
    ingest_event (insert_event db ev.event_type ev.package_name ev.version
      ev.transaction_signature ev.slot blockTime).1 now ev log

/-! ### Scan loop cursor management (src/indexer/listener.rs start_indexer) -/

/-- In-memory and persisted cursor state of the scan loop.  memCursor is the
local variable last_slot; persisted is the last_processed_slot column of the
singleton indexer_state row; errorCount mirrors its error_count column. -/
structure ScanState where
  memCursor : Nat
  persisted : Nat
  errorCount : Nat
deriving DecidableEq, Repr

/-- One iteration of the per-slot loop body of start_indexer: on success the
cursor is persisted when the slot is a multiple of ten or the final slot of
the range; on failure an error diagnostic is persisted and the loop moves
on.  The abstract slotOk argument stands for the Result of process_slot. -/
def processRangeStep (tip : Nat) (slotOk : Nat → Bool) (s : ScanState) (slot : Nat) : ScanState :=
  if slotOk slot then
    if slot % 10 == 0 || slot == tip then { s with persisted := slot } else s
  else { s with errorCount := s.errorCount + 1 }

/-- The slots of one processing range, in increasing order. -/
def rangeSlots (lastSlot tip : Nat) : List Nat :=
  (List.range (tip - lastSlot)).map (fun i => lastSlot + 1 + i)

/-- One polling iteration of start_indexer after a successful tip fetch:
when the tip is ahead of the cursor every slot of the range is processed in
order and the in-memory cursor jumps to the tip. -/
def pollIteration (s : ScanState) (tip : Nat) (slotOk : Nat → Bool) : ScanState :=
  if s.memCursor < tip then
    { (rangeSlots s.memCursor tip).foldl (processRangeStep tip slotOk) s with memCursor := tip }
  else s

/-- Initial cursor determination of start_indexer: the persisted slot when
positive, else the override, else the current tip. -/
def resume_start_slot (storedSlot : Nat) (overrideSlot : Option Nat) (tipSlot : Nat) : Nat :=
  if 0 < storedSlot then storedSlot
  else
    match overrideSlot with
    | some o => o
    | none => tipSlot

/-! ### Query surface limit handling (src/api/handlers.rs)

Each model maps the deserialized query parameters of a list endpoint to the
limit and offset actually passed to the store query. -/

structure StoreListCall where
  limit : Int
  offset : Int
deriving DecidableEq, Repr

/-- Serde default for a missing limit parameter. -/
def default_limit : Int := 20

/-- search_packages_handler passes the client limit through unchanged. -/
def search_packages_call (limit offset : Int) : StoreListCall := ⟨limit, offset⟩

/-- list_packages_handler passes the client limit through unchanged. -/
def list_packages_call (limit offset : Int) : StoreListCall := ⟨limit, offset⟩

/-- get_recent_events_handler caps the client limit at 100; the query takes
no offset. -/
def recent_events_call (limit : Int) : StoreListCall := ⟨min limit 100, 0⟩

/-- get_package_events_handler caps the client limit at 100. -/
def package_events_call (limit offset : Int) : StoreListCall := ⟨min limit 100, offset⟩

/-- The specification property that a handler enforces a server-side upper
bound on the limit reaching the store, stated from the words of the spec for
comparison with the embedded handlers. -/
def enforcesLimitCap (f : Int → Int) : Prop := ∃ B : Int, ∀ l : Int, f l ≤ B

/-! ### Concrete inputs used by counterexamples and witnesses -/

/-- A concrete transaction signature. -/
def sigC : Str := ("sig1").data

/-- The literal publish log line of the parser coverage property. -/
def logPubJsonC : Str :=
  ("Program log: PackagePublished \x7b\"package\":\"test-pkg\",\"version\":\"1.0.0\"\x7d").data

/-- The literal update log line of the parser coverage property. -/
def logUpdKvC : Str :=
  ("Program log: Instruction: Update package=my-package version=2.0.0").data

/-- The literal download log line of the parser coverage property. -/
def logDownloadC : Str :=
  ("Program log: Download package: awesome-lib, version: 3.5.1").data

/-- The literal versionless publish log line of the parser coverage property. -/
def logPubNoVerC : Str :=
  ("Program log: PackagePublished \x7b\"package\":\"no-version-pkg\"\x7d").data

/-- The literal unrecognizable log line of the parser coverage property. -/
def logRandomC : Str := ("Program log: Some random log message").data

/-- An update log line for the package named alpha. -/
def logUpdAlphaC : Str :=
  ("Program log: Instruction: Update package=alpha version=2.0.0").data

/-- A log line carrying a keyed content address of 46 characters. -/
def logIpfsC : Str :=
  ("ipfs=QmABCDEFGHIJKLMNOPQRSTUVWXYZabcdefghijklmnopqr").data

/-- A publish log line for test-pkg carrying a content address. -/
def logPubIpfsC : Str :=
  ("Program log: PackagePublished \x7b\"package\":\"test-pkg\",\"version\":\"1.0.0\"\x7d ipfs=QmABCDEFGHIJKLMNOPQRSTUVWXYZabcdefghijklmnopqr").data

/-- An empty store. -/
def emptyDB : DB := ⟨[], [], [], 1, 1⟩

/-- The package row for awesome-lib with zero downloads. -/
def p0C : PackageRow := ⟨1, ("awesome-lib").data, unknownStr, none, none, none, 0, 0, 0⟩

/-- The version row 3.5.1 of awesome-lib with zero downloads. -/
def v0C : VersionRow := ⟨1, 1, ("3.5.1").data, ("QmX").data, 0, 0⟩

/-- A store holding the package awesome-lib with its version 3.5.1, both
with zero downloads. -/
def dbDownloadC : DB := ⟨[p0C], [v0C], [], 2, 2⟩

/-- A 46 character CIDv0-shaped content address. -/
def cidC : Str := ("QmABCDEFGHIJKLMNOPQRSTUVWXYZabcdefghijklmnopqr").data

/-- A log line whose only content address candidate is a bare Qm token. -/
def logQmC : Str :=
  ("Random text QmABCDEFGHIJKLMNOPQRSTUVWXYZabcdefghijklmnopqr more").data

/-- The publish event for test-pkg version 1.0.0 as produced by the parser. -/
def evPubC : Event := ⟨0, tyPublished, ("test-pkg").data, some (("1.0.0").data), sigC, 1, none⟩

/-- A package row for test-pkg carrying caller-supplied metadata. -/
def qMetaC : PackageRow :=
  ⟨1, ("test-pkg").data, ("alice").data, some (("d").data), some (("r").data),
   some (("h").data), 4, 2, 2⟩

/-- A store holding only the metadata-carrying test-pkg row. -/
def dbPubMetaC : DB := ⟨[qMetaC], [], [], 2, 1⟩

/-- A store holding the package alpha with caller-supplied metadata and its
version 1.0.0. -/
def dbAlphaC : DB :=
  ⟨[⟨1, ("alpha").data, ("alice").data, some (("desc").data), some (("repo").data),
     some (("home").data), 5, 3, 3⟩],
   [⟨1, 1, ("1.0.0").data, ("QmY").data, 2, 3⟩], [], 2, 2⟩

/-- The store after ingesting the download line once. -/
def dbAfterOnceC : DB := handle_log dbDownloadC 0 logDownloadC sigC 5 none

/-- The store after ingesting the identical download triple a second time. -/
def dbAfterTwiceC : DB := handle_log dbAfterOnceC 0 logDownloadC sigC 5 none

/-! ## Theorems -/

/-! ### Helper lemmas on the extraction strategies -/

/-- Every value returned through the shared guard is non-empty. -/
theorem guardNonEmpty_ne_nil {value v : Str} (h : guardNonEmpty value = some v) : v ≠ [] := by
  unfold guardNonEmpty at h
  split at h
  · exact absurd h (by simp)
  · simp only [Option.some.injEq] at h
    subst h
    assumption

/-- Values produced by the JSON pattern probe are non-empty. -/
theorem tryJsonPattern_ne_nil {log pat : Str} {skip : Nat} {v : Str}
    (h : tryJsonPattern log pat skip = some v) : v ≠ [] := by
  unfold tryJsonPattern at h
  repeat' split at h
  all_goals first
    | exact guardNonEmpty_ne_nil h
    | exact Option.noConfusion h

/-- Values produced by the JSON field strategy are non-empty. -/
theorem tryExtractJsonField_ne_nil {log field v : Str}
    (h : tryExtractJsonField log field = some v) : v ≠ [] := by
  unfold tryExtractJsonField at h
  split at h
  · rename_i v1 heq
    obtain rfl : v1 = v := Option.some.inj h
    exact tryJsonPattern_ne_nil heq
  · exact tryJsonPattern_ne_nil h

/-- Values produced by the key-value strategy are non-empty. -/
theorem tryExtractKvField_ne_nil {log field v : Str}
    (h : tryExtractKvField log field = some v) : v ≠ [] := by
  unfold tryExtractKvField at h
  repeat' split at h
  all_goals first
    | exact guardNonEmpty_ne_nil h
    | exact Option.noConfusion h

/-- Values produced by the colon strategy are non-empty. -/
theorem tryExtractColonField_ne_nil {log field v : Str}
    (h : tryExtractColonField log field = some v) : v ≠ [] := by
  unfold tryExtractColonField at h
  repeat' split at h
  all_goals first
    | exact guardNonEmpty_ne_nil h
    | exact Option.noConfusion h

/-- Values produced by one structured pattern probe are non-empty. -/
theorem tryStructuredPattern_ne_nil {log pat v : Str}
    (h : tryStructuredPattern log pat = some v) : v ≠ [] := by
  unfold tryStructuredPattern at h
  repeat' split at h
  all_goals first
    | exact guardNonEmpty_ne_nil h
    | exact Option.noConfusion h

/-- Values produced by the structured log strategy are non-empty. -/
theorem tryExtractStructuredField_ne_nil {log field v : Str}
    (h : tryExtractStructuredField log field = some v) : v ≠ [] := by
  unfold tryExtractStructuredField at h
  split at h
  · rename_i v1 heq
    obtain rfl : v1 = v := Option.some.inj h
    exact tryStructuredPattern_ne_nil heq
  · exact tryStructuredPattern_ne_nil h

/-- Values produced by extract_field are non-empty. -/
theorem extract_field_ne_nil {log field v : Str}
    (h : extract_field log field = some v) : v ≠ [] := by
  unfold extract_field at h
  split at h
  · rename_i v1 heq
    obtain rfl : v1 = v := Option.some.inj h
    exact tryExtractJsonField_ne_nil heq
  · split at h
    · rename_i v1 heq
      obtain rfl : v1 = v := Option.some.inj h
      exact tryExtractKvField_ne_nil heq
    · split at h
      · rename_i v1 heq
        obtain rfl : v1 = v := Option.some.inj h
        exact tryExtractColonField_ne_nil heq
      · exact tryExtractStructuredField_ne_nil h

/-- Names produced by the at-format strategy are non-empty. -/
theorem tryExtractAtFormat_name_ne_nil {log n : Str} {ver : Option Str}
    (h : tryExtractAtFormat log = some (n, ver)) : n ≠ [] := by
  unfold tryExtractAtFormat at h
  repeat' split at h
  all_goals try exact Option.noConfusion h
  rename_i hcond
  simp only [Option.some.injEq, Prod.mk.injEq] at h
  obtain ⟨h1, h2⟩ := h
  subst h1
  simp only [Bool.and_eq_true, decide_eq_true_eq] at hcond
  exact hcond.1

/-- Names produced by the name extraction chain are non-empty. -/
theorem extractNameField_ne_nil {log v : Str} (h : extractNameField log = some v) : v ≠ [] := by
  unfold extractNameField at h
  split at h
  · rename_i v1 heq
    obtain rfl : v1 = v := Option.some.inj h
    exact extract_field_ne_nil heq
  · split at h
    · rename_i v1 heq
      obtain rfl : v1 = v := Option.some.inj h
      exact extract_field_ne_nil heq
    · exact extract_field_ne_nil h

/-- Names produced by extract_package_info are non-empty. -/
theorem extract_package_info_name_ne_nil {log n : Str} {ver : Option Str}
    (h : extract_package_info log = some (n, ver)) : n ≠ [] := by
  unfold extract_package_info at h
  split at h
  · rename_i r heq
    obtain rfl : r = (n, ver) := Option.some.inj h
    exact tryExtractAtFormat_name_ne_nil heq
  · split at h
    · rename_i packageName heq
      simp only [Option.some.injEq, Prod.mk.injEq] at h
      obtain ⟨h1, h2⟩ := h
      subst h1
      exact extractNameField_ne_nil heq
    · exact absurd h (by simp)

/-- Events produced by one pattern block have a non-empty package name and
the event type of the block. -/
theorem tryEventPattern_name_ne_nil {marker : Bool} {ty log sig : Str} {slot : Int}
    {bt : Option Int} {e : Event}
    (h : tryEventPattern marker ty log sig slot bt = some e) :
    e.package_name ≠ [] ∧ e.event_type = ty := by
  unfold tryEventPattern at h
  split at h
  · rw [Option.map_eq_some'] at h
    obtain ⟨i, hi, rfl⟩ := h
    obtain ⟨n, ver⟩ := i
    exact ⟨extract_package_info_name_ne_nil hi, rfl⟩
  · exact absurd h (by simp)

/-- C7: parse_transaction maps each of the five literal parser-coverage log
lines to exactly the stated result: the JSON publish line yields a
PackagePublished event for test-pkg version 1.0.0, the key-value update line
yields PackageUpdated for my-package version 2.0.0, the colon download line
yields PackageDownloaded for awesome-lib version 3.5.1, the versionless
publish line yields an event with version none, and the random line yields
none. -/
theorem C7_parser_coverage :
    parse_transaction logPubJsonC sigC 1 none =
      some ⟨0, tyPublished, ("test-pkg").data, some (("1.0.0").data), sigC, 1, none⟩ ∧
    parse_transaction logUpdKvC sigC 1 none =
      some ⟨0, tyUpdated, ("my-package").data, some (("2.0.0").data), sigC, 1, none⟩ ∧
    parse_transaction logDownloadC sigC 1 none =
      some ⟨0, tyDownloaded, ("awesome-lib").data, some (("3.5.1").data), sigC, 1, none⟩ ∧
    parse_transaction logPubNoVerC sigC 1 none =
      some ⟨0, tyPublished, ("no-version-pkg").data, none, sigC, 1, none⟩ ∧
    parse_transaction logRandomC sigC 1 none = none := by
  refine ⟨by decide, by decide, by decide, by decide, by decide⟩

/-- C1: evaluation of the pipeline at the failing input.  Ingesting the
identical (log, signature, slot) download triple twice against a store that
holds the package and version leaves exactly one stored event row, as the
claim states, but the download counters reach two: the duplicate insert is
reported as Ok by insert_event, so both the scan loop and the manual
endpoint run the ingestion helper a second time and re-increment the
counters, contradicting the no-op the claim and the spec require. -/
theorem C1_duplicate_replay_double_counts :
    dbAfterOnceC.events.length = 1 ∧
    dbAfterOnceC.packages.map (fun p => p.total_downloads) = [1] ∧
    dbAfterOnceC.versions.map (fun v => v.downloads) = [1] ∧
    dbAfterTwiceC.events.length = 1 ∧
    dbAfterTwiceC.packages.map (fun p => p.total_downloads) = [2] ∧
    dbAfterTwiceC.versions.map (fun v => v.downloads) = [2] := by
  refine ⟨by decide, by decide, by decide, by decide, by decide, by decide⟩

/-- C2 counterexample: the literal versionless publish line parses to a
PackagePublished event with version none, yet ingesting it into an empty
store creates no Package row at all, so the Package upsert is not performed
regardless of the version being present, contrary to the claim. -/
theorem C2_cex_versionless_publish_skips_package_upsert :
    parse_transaction logPubNoVerC sigC 1 none =
      some ⟨0, tyPublished, ("no-version-pkg").data, none, sigC, 1, none⟩ ∧
    (handle_log emptyDB 0 logPubNoVerC sigC 1 none).packages = [] ∧
    (handle_log emptyDB 0 logPubNoVerC sigC 1 none).events.length = 1 := by
  refine ⟨by decide, by decide, by decide⟩

/-- C4 counterexample: the two counter updates are separate statements with
no surrounding transaction, so a run in which the first statement succeeds
and the second fails leaves Package.total_downloads incremented while
Version.downloads is unchanged, contradicting the claimed atomicity. -/
theorem C4_cex_partial_failure_splits_counters :
    (increment_download_run dbDownloadC 1 1 true false).1.packages.map
      (fun p => p.total_downloads) = [1] ∧
    (increment_download_run dbDownloadC 1 1 true false).1.versions.map
      (fun v => v.downloads) = [0] ∧
    (increment_download_run dbDownloadC 1 1 true false).2 = false := by
  refine ⟨by decide, by decide, by decide⟩

/-- C5 counterexample: a range whose single slot fails to process completes
with the in-memory cursor advanced to the tip but with no cursor persist at
the end of the range, because the end-of-range persist sits inside the
success branch of the per-slot match; so the persist is not unconditional. -/
theorem C5_cex_failed_final_slot_skips_end_persist :
    (pollIteration ⟨20, 20, 0⟩ 21 (fun _ => false)).memCursor = 21 ∧
    (pollIteration ⟨20, 20, 0⟩ 21 (fun _ => false)).persisted = 20 ∧
    (pollIteration ⟨20, 20, 0⟩ 21 (fun _ => false)).errorCount = 1 := by
  refine ⟨by decide, by decide, by decide⟩

/-- C6 counterexample: the search and list handlers pass the client limit to
the store unchanged, so no server-side upper bound exists for them; the
concrete limit 1000000 reaches the store verbatim. -/
theorem C6_cex_search_and_list_limits_uncapped :
    ¬ enforcesLimitCap (fun l => (search_packages_call l 0).limit) ∧
    ¬ enforcesLimitCap (fun l => (list_packages_call l 0).limit) ∧
    (search_packages_call 1000000 0).limit = 1000000 ∧
    (list_packages_call 1000000 0).limit = 1000000 := by
  refine ⟨?_, ?_, rfl, rfl⟩ <;>
  · rintro ⟨B, hB⟩
    have h : B + 1 ≤ B := hB (B + 1)
    omega

/-- C9 counterexample: re-ingesting an Updated event for the existing
package alpha leaves its caller-supplied metadata untouched, because the
Updated branch resolves the existing package id without calling the package
upsert; the claim predicted a reset to placeholder metadata. -/
theorem C9_cex_update_existing_package_keeps_metadata :
    parse_transaction logUpdAlphaC sigC 1 none =
      some ⟨0, tyUpdated, ("alpha").data, some (("2.0.0").data), sigC, 1, none⟩ ∧
    (handle_log dbAlphaC 9 logUpdAlphaC sigC 1 none).packages = dbAlphaC.packages ∧
    dbAlphaC.packages.map (fun p => p.author) = [("alice").data] := by
  refine ⟨by decide, by decide, by decide⟩

/-- C10: for every log line, signature, slot and block time, an event
returned by parse_transaction carries a non-empty package name: every
extraction strategy rejects empty values and an event is constructed only
when name extraction succeeds. -/
theorem C10_parsed_name_nonempty (log sig : Str) (slot : Int) (bt : Option Int) (ev : Event)
    (h : parse_transaction log sig slot bt = some ev) : ev.package_name ≠ [] := by
  unfold parse_transaction at h
  split at h
  · rename_i e1 heq
    obtain rfl : e1 = ev := Option.some.inj h
    exact (tryEventPattern_name_ne_nil heq).1
  · split at h
    · rename_i e1 heq
      obtain rfl : e1 = ev := Option.some.inj h
      exact (tryEventPattern_name_ne_nil heq).1
    · split at h
      · rename_i e1 heq
        obtain rfl : e1 = ev := Option.some.inj h
        exact (tryEventPattern_name_ne_nil heq).1
      · split at h
        · rw [Option.map_eq_some'] at h
          obtain ⟨i, hi, rfl⟩ := h
          obtain ⟨n, ver⟩ := i
          exact extract_package_info_name_ne_nil hi
        · exact Option.noConfusion h

/-- C10 witness: the literal publish line parses to a concrete event whose
name the theorem shows non-empty. -/
theorem C10_parsed_name_nonempty_w :
    (Event.mk 0 tyPublished (("test-pkg").data) (some (("1.0.0").data)) sigC 1 none).package_name ≠ [] :=
  C10_parsed_name_nonempty logPubJsonC sigC 1 none
    (Event.mk 0 tyPublished (("test-pkg").data) (some (("1.0.0").data)) sigC 1 none) (by decide)

/-! ### Content address extraction bounds -/

/-- A keyed candidate is returned only when at least 46 characters long. -/
theorem ipfsKeyCandidate_length {log lower pat : Str} {skip : Nat} {c : Str}
    (h : ipfsKeyCandidate log lower pat skip = some c) : 46 ≤ c.length := by
  unfold ipfsKeyCandidate at h
  repeat' split at h
  all_goals first
    | exact Option.noConfusion h
    | (rename_i hcond
       obtain rfl : _ = c := Option.some.inj h
       exact hcond)

/-- Both probe forms of one key respect the 46 character minimum. -/
theorem ipfsTryKey_length {log lower key c : Str}
    (h : ipfsTryKey log lower key = some c) : 46 ≤ c.length := by
  unfold ipfsTryKey at h
  split at h
  · rename_i c1 heq
    obtain rfl : c1 = c := Option.some.inj h
    exact ipfsKeyCandidate_length heq
  · exact ipfsKeyCandidate_length h

/-- The keyed part of extract_ipfs_hash respects the 46 character minimum. -/
theorem extract_ipfs_keyed_length {log c : Str}
    (h : extract_ipfs_keyed log = some c) : 46 ≤ c.length := by
  unfold extract_ipfs_keyed at h
  split at h
  · rename_i c1 heq
    obtain rfl : c1 = c := Option.some.inj h
    exact ipfsTryKey_length heq
  · split at h
    · rename_i c1 heq
      obtain rfl : c1 = c := Option.some.inj h
      exact ipfsTryKey_length heq
    · exact ipfsTryKey_length h

/-- The fallback token scan returns only tokens that start with Qm and have
length in the interval from 46 to 60. -/
theorem qmFallback_spec {parts : List Str} {c : Str}
    (h : qmFallback parts = some c) :
    isPrefix qmPrefix c = true ∧ 46 ≤ c.length ∧ c.length ≤ 60 := by
  induction parts with
  | nil => exact Option.noConfusion h
  | cons part rest ih =>
    unfold qmFallback at h
    split at h
    · rename_i hcond
      obtain rfl : _ = c := Option.some.inj h
      simp only [Bool.and_eq_true, decide_eq_true_eq] at hcond
      exact ⟨hcond.1.1, hcond.1.2, hcond.2⟩
    · exact ih h

/-- Every content address returned by extract_ipfs_hash is at least 46
characters long. -/
theorem extract_ipfs_hash_length {log c : Str}
    (h : extract_ipfs_hash log = some c) : 46 ≤ c.length := by
  unfold extract_ipfs_hash at h
  split at h
  · rename_i c1 heq
    obtain rfl : c1 = c := Option.some.inj h
    exact extract_ipfs_keyed_length heq
  · exact (qmFallback_spec h).2.1

/-- An extracted content address is never the sentinel string unknown. -/
theorem extract_ipfs_hash_ne_unknown {log c : Str}
    (h : extract_ipfs_hash log = some c) : c ≠ unknownStr := by
  intro hc
  have hl := extract_ipfs_hash_length h
  rw [hc] at hl
  exact absurd hl (by decide)

/-- C8: extract_ipfs_hash accepts a candidate found through the keyed forms
only when its length is at least 46; its fallback token scan returns a
separator-delimited token only when, after end trimming, it starts with the
CIDv0 prefix Qm and its length is between 46 and 60; and a line in which
neither part finds a candidate yields none. -/
theorem C8_content_address_heuristics (log c : Str) :
    (extract_ipfs_keyed log = some c → 46 ≤ c.length) ∧
    (qmFallback (splitOnP ipfsSepChar log) = some c →
      isPrefix qmPrefix c = true ∧ 46 ≤ c.length ∧ c.length ≤ 60) ∧
    (extract_ipfs_keyed log = none → qmFallback (splitOnP ipfsSepChar log) = none →
      extract_ipfs_hash log = none) ∧
    (extract_ipfs_hash log = some c → 46 ≤ c.length) := by
  refine ⟨fun h => extract_ipfs_keyed_length h, fun h => qmFallback_spec h,
    fun h1 h2 => ?_, fun h => extract_ipfs_hash_length h⟩
  unfold extract_ipfs_hash
  rw [h1]
  exact h2

/-- C8 witness: the keyed form on a concrete line yields a 46 character
candidate, and the fallback on another concrete line yields a token with the
Qm prefix and in-range length. -/
theorem C8_content_address_heuristics_w :
    46 ≤ cidC.length ∧
    (isPrefix qmPrefix cidC = true ∧ 46 ≤ cidC.length ∧ cidC.length ≤ 60) :=
  ⟨(C8_content_address_heuristics logIpfsC cidC).1 (by decide),
   (C8_content_address_heuristics logQmC cidC).2.1 (by decide)⟩

/-! ### Store upsert lemmas -/

/-- Updating an existing package row: the row with the matching name is
overwritten on author, description, repository, homepage and updated_at,
keeping its other fields. -/
theorem insert_package_mem_update {db : DB} {q : PackageRow} {name : Str} (now : Nat)
    (author : Str) (d r hp : Option Str) (hq : q ∈ db.packages) (hname : q.name = name) :
    { q with author := author, description := d, repository := r,
             homepage := hp, updated_at := now } ∈
      (insert_package db now name author d r hp).1.packages := by
  cases hfind : db.packages.find? (fun p => p.name == name) with
  | some p =>
    simp only [insert_package, hfind, List.mem_map]
    exact ⟨q, hq, by rw [if_pos (by simp [hname])]⟩
  | none =>
    rw [List.find?_eq_none] at hfind
    exact absurd (by simp [hname]) (hfind q hq)

/-- Rows whose name differs from the upserted one are untouched. -/
theorem insert_package_mem_other {db : DB} {q : PackageRow} {name : Str} (now : Nat)
    (author : Str) (d r hp : Option Str) (hq : q ∈ db.packages) (hname : q.name ≠ name) :
    q ∈ (insert_package db now name author d r hp).1.packages := by
  cases hfind : db.packages.find? (fun p => p.name == name) with
  | some p =>
    simp only [insert_package, hfind, List.mem_map]
    exact ⟨q, hq, by rw [if_neg (by simp [hname])]⟩
  | none =>
    simp only [insert_package, hfind]
    exact List.mem_append_left _ hq

/-- After the package upsert a row with the given name and the given
metadata exists. -/
theorem insert_package_mem_name (db : DB) (now : Nat) (name author : Str)
    (d r hp : Option Str) :
    ∃ p ∈ (insert_package db now name author d r hp).1.packages,
      p.name = name ∧ p.author = author ∧ p.description = d ∧ p.repository = r ∧
      p.homepage = hp := by
  cases hfind : db.packages.find? (fun p => p.name == name) with
  | some p =>
    have hq : p ∈ db.packages := List.mem_of_find?_eq_some hfind
    have hname := List.find?_some hfind
    simp only [beq_iff_eq] at hname
    exact ⟨_, insert_package_mem_update now author d r hp hq hname, hname, rfl, rfl, rfl, rfl⟩
  | none =>
    refine ⟨⟨db.nextPackageId, name, author, d, r, hp, 0, now, now⟩, ?_, rfl, rfl, rfl, rfl, rfl⟩
    simp [insert_package, hfind]

/-- The package upsert touches only the packages table. -/
theorem insert_package_keeps (db : DB) (now : Nat) (name author : Str) (d r hp : Option Str) :
    (insert_package db now name author d r hp).1.versions = db.versions ∧
    (insert_package db now name author d r hp).1.events = db.events := by
  unfold insert_package
  split <;> exact ⟨rfl, rfl⟩

/-- After the version upsert a row with the given key and content address
exists. -/
theorem insert_version_mem_key (db : DB) (pid : Nat) (ver hash : Str) (now : Nat) :
    ∃ w ∈ (insert_version db pid ver hash now).1.versions,
      w.package_id = pid ∧ w.version = ver ∧ w.ipfs_hash = hash := by
  cases hfind : db.versions.find? (fun v => v.package_id == pid && v.version == ver) with
  | some w =>
    have hw : w ∈ db.versions := List.mem_of_find?_eq_some hfind
    have hcond := List.find?_some hfind
    simp only [Bool.and_eq_true, beq_iff_eq] at hcond
    refine ⟨{ w with ipfs_hash := hash }, ?_, hcond.1, hcond.2, rfl⟩
    simp only [insert_version, hfind, List.mem_map]
    exact ⟨w, hw, by rw [if_pos (by simp [hcond.1, hcond.2])]⟩
  | none =>
    refine ⟨⟨db.nextVersionId, pid, ver, hash, 0, now⟩, ?_, rfl, rfl, rfl⟩
    simp [insert_version, hfind]

/-- The version upsert touches only the versions table. -/
theorem insert_version_keeps (db : DB) (pid : Nat) (ver hash : Str) (now : Nat) :
    (insert_version db pid ver hash now).1.packages = db.packages ∧
    (insert_version db pid ver hash now).1.events = db.events := by
  unfold insert_version
  split <;> exact ⟨rfl, rfl⟩

/-- The event insert leaves packages and versions untouched and, for a fresh
signature, appends exactly the given event row. -/
theorem insert_event_spec (db : DB) (ty pn : Str) (ver : Option Str) (sig : Str)
    (slot : Int) (bt : Option Int) :
    (insert_event db ty pn ver sig slot bt).1.packages = db.packages ∧
    (insert_event db ty pn ver sig slot bt).1.versions = db.versions ∧
    (db.events.any (fun e => e.transaction_signature == sig) = false →
      (insert_event db ty pn ver sig slot bt).1.events =
        db.events ++ [⟨ty, pn, ver, sig, slot, bt⟩]) := by
  unfold insert_event
  split
  · rename_i hdup
    exact ⟨rfl, rfl, fun hfresh => absurd hdup (by simp [hfresh])⟩
  · exact ⟨rfl, rfl, fun _ => rfl⟩

/-- Resolution of a Downloaded event depends only on the packages and
versions tables. -/
theorem resolveDownload_congr {db db2 : DB} (hp : db2.packages = db.packages)
    (hv : db2.versions = db.versions) (ev : Event) :
    resolveDownload db2 ev = resolveDownload db ev := by
  unfold resolveDownload get_package_id get_version_id
  rw [hp, hv]

/-- A Downloaded event that does not resolve leaves the store unchanged. -/
theorem ingestDownloaded_no_resolution {db : DB} {ev : Event}
    (hres : resolveDownload db ev = none) : ingestDownloaded db ev = db := by
  unfold ingestDownloaded
  unfold resolveDownload at hres
  cases hv : ev.version with
  | none => rfl
  | some ver =>
    simp only [hv] at hres ⊢
    cases hpid : get_package_id db ev.package_name with
    | none => simp only [hpid]
    | some pkgId =>
      simp only [hpid] at hres ⊢
      rw [Option.map_eq_none'] at hres
      simp only [hres]

/-- Dispatch of ingest_event for Published events. -/
theorem ingest_event_published {db : DB} {now : Nat} {ev : Event} {log : Str}
    (hty : ev.event_type = tyPublished) :
    ingest_event db now ev log = ingestPublished db now ev log := by
  unfold ingest_event
  simp only [hty]
  rw [if_pos (by decide)]

/-- Dispatch of ingest_event for Updated events. -/
theorem ingest_event_updated {db : DB} {now : Nat} {ev : Event} {log : Str}
    (hty : ev.event_type = tyUpdated) :
    ingest_event db now ev log = ingestUpdated db now ev log := by
  unfold ingest_event
  simp only [hty]
  rw [if_neg (by decide), if_pos (by decide)]

/-- Dispatch of ingest_event for Downloaded events. -/
theorem ingest_event_downloaded {db : DB} {now : Nat} {ev : Event} {log : Str}
    (hty : ev.event_type = tyDownloaded) :
    ingest_event db now ev log = ingestDownloaded db ev := by
  unfold ingest_event
  simp only [hty]
  rw [if_neg (by decide), if_neg (by decide), if_pos (by decide)]

/-- C3: a Downloaded event whose package or version does not resolve against
the store leaves packages, versions and every counter untouched while the
event row itself is still recorded; the drop is not an error, as the
embedded ingestion is total exactly because the Rust helper returns Ok on
this path. -/
theorem C3_download_before_publish_safety (db : DB) (now : Nat) (log sig : Str) (slot : Int)
    (bt : Option Int) (ev : Event)
    (hp : parse_transaction log sig slot bt = some ev)
    (hty : ev.event_type = tyDownloaded)
    (hres : resolveDownload db ev = none)
    (hfresh : db.events.any (fun e => e.transaction_signature == ev.transaction_signature) = false) :
    (handle_log db now log sig slot bt).packages = db.packages ∧
    (handle_log db now log sig slot bt).versions = db.versions ∧
    (handle_log db now log sig slot bt).events =
      db.events ++ [⟨ev.event_type, ev.package_name, ev.version,
        ev.transaction_signature, ev.slot, bt⟩] := by
  have hspec := insert_event_spec db ev.event_type ev.package_name ev.version
    ev.transaction_signature ev.slot bt
  have hres1 : resolveDownload (insert_event db ev.event_type ev.package_name ev.version
      ev.transaction_signature ev.slot bt).1 ev = none := by
    rw [resolveDownload_congr hspec.1 hspec.2.1]
    exact hres
  unfold handle_log
  simp only [hp]
  rw [ingest_event_downloaded hty, ingestDownloaded_no_resolution hres1]
  exact ⟨hspec.1, hspec.2.1, hspec.2.2 hfresh⟩

/-- C3 witness: ingesting the literal download line into an empty store
records the event row and creates nothing else. -/
theorem C3_download_before_publish_safety_w :
    (handle_log emptyDB 0 logDownloadC sigC 1 none).packages = emptyDB.packages ∧
    (handle_log emptyDB 0 logDownloadC sigC 1 none).versions = emptyDB.versions ∧
    (handle_log emptyDB 0 logDownloadC sigC 1 none).events =
      emptyDB.events ++ [⟨tyDownloaded, ("awesome-lib").data, some (("3.5.1").data),
        sigC, 1, none⟩] :=
  C3_download_before_publish_safety emptyDB 0 logDownloadC sigC 1 none
    (Event.mk 0 tyDownloaded (("awesome-lib").data) (some (("3.5.1").data)) sigC 1 none)
    (by decide) rfl (by decide) (by decide)

/-- C2 amended: for a Published event the Package upsert happens only when
the event carries a version: with a version present the package is upserted
by name with placeholder metadata, and the Version keyed by the upserted
package and that version is upserted with the extracted content address when
one is present, while the versions table is untouched when none is found;
with no version the ingestion changes nothing, and this is not an error. -/
theorem C2_published_ingestion (db : DB) (now : Nat) (ev : Event) (log : Str)
    (hty : ev.event_type = tyPublished) :
    (ev.version = none → ingest_event db now ev log = db) ∧
    (∀ v, ev.version = some v →
      (∃ p ∈ (ingest_event db now ev log).packages,
        p.name = ev.package_name ∧ p.author = unknownStr ∧ p.description = none ∧
        p.repository = none ∧ p.homepage = none) ∧
      (extract_ipfs_hash log = none → (ingest_event db now ev log).versions = db.versions) ∧
      (∀ c, extract_ipfs_hash log = some c →
        ∃ w ∈ (ingest_event db now ev log).versions,
          w.package_id = (insert_package db now ev.package_name unknownStr none none none).2 ∧
          w.version = v ∧ w.ipfs_hash = c)) := by
  rw [ingest_event_published hty]
  constructor
  · intro hv
    unfold ingestPublished
    simp only [hv]
  · intro v hv
    unfold ingestPublished
    simp only [hv]
    cases hex : extract_ipfs_hash log with
    | none =>
      simp only [Option.getD_none]
      rw [if_neg (fun hcon => hcon rfl)]
      refine ⟨insert_package_mem_name db now ev.package_name unknownStr none none none,
        fun _ => (insert_package_keeps db now ev.package_name unknownStr none none none).1,
        fun c hc => Option.noConfusion hc⟩
    | some c0 =>
      simp only [Option.getD_some]
      rw [if_pos (extract_ipfs_hash_ne_unknown hex)]
      refine ⟨?_, fun hcon => ?_, fun c hc => ?_⟩
      · obtain ⟨p, hpmem, hprops⟩ :=
          insert_package_mem_name db now ev.package_name unknownStr none none none
        refine ⟨p, ?_, hprops⟩
        rw [(insert_version_keeps (insert_package db now ev.package_name unknownStr none none none).1
          (insert_package db now ev.package_name unknownStr none none none).2 v c0 now).1]
        exact hpmem
      · exact Option.noConfusion hcon
      · obtain rfl : c0 = c := Option.some.inj hc
        exact insert_version_mem_key
          (insert_package db now ev.package_name unknownStr none none none).1
          (insert_package db now ev.package_name unknownStr none none none).2 v c0 now

/-- C2 witness: ingesting the publish event with a content address into an
empty store creates the placeholder package row. -/
theorem C2_published_ingestion_w :
    ∃ p ∈ (ingest_event emptyDB 7 evPubC logPubIpfsC).packages,
      p.name = evPubC.package_name ∧ p.author = unknownStr ∧ p.description = none ∧
      p.repository = none ∧ p.homepage = none :=
  ((C2_published_ingestion emptyDB 7 evPubC logPubIpfsC rfl).2 (("1.0.0").data) rfl).1

/-- C9 amended: the package upsert overwrites author, description,
repository and homepage and refreshes updated_at, leaving name, id,
total_downloads and created_at untouched; the engine passes placeholder
metadata, so re-ingesting a Published event that carries a version resets an
existing package to placeholders; but an Updated event for an existing
package resolves the id without calling the upsert and leaves the packages
table unchanged, and a Published event without a version performs no upsert
at all. -/
theorem C9_upsert_overwrite_and_engine_calls (db : DB) (now : Nat) (ev : Event) (log : Str) :
    (∀ (name author : Str) (d r hp : Option Str), ∀ q ∈ db.packages,
      (q.name = name →
        { q with author := author, description := d, repository := r,
                 homepage := hp, updated_at := now } ∈
          (insert_package db now name author d r hp).1.packages) ∧
      (q.name ≠ name → q ∈ (insert_package db now name author d r hp).1.packages)) ∧
    (ev.event_type = tyPublished → ∀ v, ev.version = some v → ∀ q ∈ db.packages,
      q.name = ev.package_name →
      { q with author := unknownStr, description := none, repository := none,
               homepage := none, updated_at := now } ∈ (ingest_event db now ev log).packages) ∧
    (ev.event_type = tyUpdated → ∀ pid, get_package_id db ev.package_name = some pid →
      (ingest_event db now ev log).packages = db.packages) ∧
    (ev.event_type = tyPublished → ev.version = none → ingest_event db now ev log = db) := by
  refine ⟨fun name author d r hp q hq =>
      ⟨fun hname => insert_package_mem_update now author d r hp hq hname,
       fun hname => insert_package_mem_other now author d r hp hq hname⟩,
    fun htyP v hv q hq hqname => ?_, fun htyU pid hpid => ?_, fun htyP hv => ?_⟩
  · rw [ingest_event_published htyP]
    unfold ingestPublished
    simp only [hv]
    cases hex : extract_ipfs_hash log with
    | none =>
      simp only [Option.getD_none]
      rw [if_neg (fun hcon => hcon rfl)]
      exact insert_package_mem_update now unknownStr none none none hq hqname
    | some c0 =>
      simp only [Option.getD_some]
      rw [if_pos (extract_ipfs_hash_ne_unknown hex)]
      rw [(insert_version_keeps (insert_package db now ev.package_name unknownStr none none none).1
        (insert_package db now ev.package_name unknownStr none none none).2 v c0 now).1]
      exact insert_package_mem_update now unknownStr none none none hq hqname
  · rw [ingest_event_updated htyU]
    unfold ingestUpdated
    cases hv : ev.version with
    | none => rfl
    | some v =>
      simp only [hpid]
      cases hex : extract_ipfs_hash log with
      | none =>
        simp only [Option.getD_none]
        rw [if_neg (fun hcon => hcon rfl)]
      | some c0 =>
        simp only [Option.getD_some]
        rw [if_pos (extract_ipfs_hash_ne_unknown hex)]
        exact (insert_version_keeps db pid v c0 now).1
  · rw [ingest_event_published htyP]
    unfold ingestPublished
    simp only [hv]

/-- C9 witness: re-ingesting the publish event for the existing test-pkg row
with caller-supplied metadata resets the row to placeholders. -/
theorem C9_upsert_overwrite_and_engine_calls_w :
    { qMetaC with author := unknownStr, description := none, repository := none,
                  homepage := none, updated_at := 9 } ∈
      (ingest_event dbPubMetaC 9 evPubC logPubJsonC).packages :=
  (C9_upsert_overwrite_and_engine_calls dbPubMetaC 9 evPubC logPubJsonC).2.1 rfl
    (("1.0.0").data) rfl qMetaC (by decide) rfl

/-- C4 amended: the two counters are updated by two separate sequential
statements, not one atomic unit: when both statements succeed each counter
is incremented by exactly one and rows with other ids as well as the events
table are untouched; but in a run where the second statement fails the
package counter stays incremented while the versions table is unchanged. -/
theorem C4_download_counter_increments (db : DB) (pid vid : Nat) :
    (∀ p ∈ db.packages,
      (p.id = pid → { p with total_downloads := p.total_downloads + 1 } ∈
          (increment_download db pid vid).packages) ∧
      (p.id ≠ pid → p ∈ (increment_download db pid vid).packages)) ∧
    (∀ w ∈ db.versions,
      (w.id = vid → { w with downloads := w.downloads + 1 } ∈
          (increment_download db pid vid).versions) ∧
      (w.id ≠ vid → w ∈ (increment_download db pid vid).versions)) ∧
    (increment_download db pid vid).events = db.events ∧
    (increment_download_run db pid vid true false).1.versions = db.versions ∧
    (increment_download_run db pid vid true false).1.packages =
      (increment_download db pid vid).packages := by
  have hpack : (increment_download db pid vid).packages =
      db.packages.map (fun p =>
        if p.id == pid then { p with total_downloads := p.total_downloads + 1 } else p) := rfl
  have hver : (increment_download db pid vid).versions =
      db.versions.map (fun w =>
        if w.id == vid then { w with downloads := w.downloads + 1 } else w) := rfl
  refine ⟨fun p hp => ⟨fun hid => ?_, fun hne => ?_⟩,
    fun w hw => ⟨fun hid => ?_, fun hne => ?_⟩, rfl, rfl, rfl⟩
  · rw [hpack]
    exact List.mem_map.mpr ⟨p, hp, by rw [if_pos (by simp [hid])]⟩
  · rw [hpack]
    exact List.mem_map.mpr ⟨p, hp, by rw [if_neg (by simp [hne])]⟩
  · rw [hver]
    exact List.mem_map.mpr ⟨w, hw, by rw [if_pos (by simp [hid])]⟩
  · rw [hver]
    exact List.mem_map.mpr ⟨w, hw, by rw [if_neg (by simp [hne])]⟩

/-- C4 witness: both counters of the awesome-lib rows are incremented by the
successful run on the concrete store. -/
theorem C4_download_counter_increments_w :
    { p0C with total_downloads := p0C.total_downloads + 1 } ∈
      (increment_download dbDownloadC 1 1).packages ∧
    { v0C with downloads := v0C.downloads + 1 } ∈
      (increment_download dbDownloadC 1 1).versions :=
  ⟨((C4_download_counter_increments dbDownloadC 1 1).1 p0C (by decide)).1 rfl,
   ((C4_download_counter_increments dbDownloadC 1 1).2.1 v0C (by decide)).1 rfl⟩

/-- C5 amended: the scan loop persists the cursor every tenth successfully
processed position and at the final position of the range provided that
final position processes successfully; in that case the persisted cursor
reaches the tip and the in-memory cursor advances to it, the range begins
immediately after the cursor, and a restart with a positive stored cursor
resumes from exactly that stored position, so scanning restarts at the
persisted position plus one. -/
theorem C5_cursor_persist_and_resume (s : ScanState) (tip : Nat) (slotOk : Nat → Bool)
    (h1 : s.memCursor < tip) (h2 : slotOk tip = true) :
    (pollIteration s tip slotOk).persisted = tip ∧
    (pollIteration s tip slotOk).memCursor = tip ∧
    (rangeSlots s.memCursor tip).head? = some (s.memCursor + 1) ∧
    (∀ stored : Nat, 0 < stored → ∀ (o : Option Nat) (t : Nat),
      resume_start_slot stored o t = stored) := by
  obtain ⟨m, hm⟩ : ∃ m, tip - s.memCursor = m + 1 := ⟨tip - s.memCursor - 1, by omega⟩
  have hlast : s.memCursor + 1 + m = tip := by omega
  have hrange : rangeSlots s.memCursor tip =
      (List.range m).map (fun i => s.memCursor + 1 + i) ++ [tip] := by
    unfold rangeSlots
    rw [hm, List.range_succ, List.map_append, List.map_singleton, hlast]
  refine ⟨?_, ?_, ?_, fun stored hst o t => ?_⟩
  · unfold pollIteration
    rw [if_pos h1, hrange, List.foldl_append]
    simp only [List.foldl_cons, List.foldl_nil]
    unfold processRangeStep
    rw [if_pos h2, if_pos (by simp)]
  · unfold pollIteration
    rw [if_pos h1]
  · unfold rangeSlots
    rw [hm, List.range_succ_eq_map]
    simp
  · unfold resume_start_slot
    rw [if_pos hst]

/-- C5 witness: with a one-slot range whose slot succeeds, the cursor is
persisted at the tip and a positive stored cursor is resumed verbatim. -/
theorem C5_cursor_persist_and_resume_w :
    (pollIteration ⟨0, 0, 0⟩ 1 (fun _ => true)).persisted = 1 ∧
    (pollIteration ⟨0, 0, 0⟩ 1 (fun _ => true)).memCursor = 1 ∧
    (rangeSlots 0 1).head? = some 1 ∧
    (∀ stored : Nat, 0 < stored → ∀ (o : Option Nat) (t : Nat),
      resume_start_slot stored o t = stored) :=
  C5_cursor_persist_and_resume ⟨0, 0, 0⟩ 1 (fun _ => true) (by decide) rfl

/-- C6 amended: only the recent events and per-package events handlers
enforce the server-side cap of 100 on the client limit before querying the
store; the search and list handlers forward the client limit unchanged, and
the offset is always forwarded unchanged. -/
theorem C6_limit_caps :
    enforcesLimitCap (fun l => (recent_events_call l).limit) ∧
    enforcesLimitCap (fun l => (package_events_call l 0).limit) ∧
    (∀ l o : Int, (search_packages_call l o).limit = l ∧ (search_packages_call l o).offset = o ∧
      (list_packages_call l o).limit = l ∧ (list_packages_call l o).offset = o) ∧
    (∀ l : Int, (recent_events_call l).limit ≤ 100 ∧
      (l ≤ 100 → (recent_events_call l).limit = l)) ∧
    (∀ l o : Int, (package_events_call l o).limit ≤ 100 ∧
      (package_events_call l o).offset = o) := by
  refine ⟨⟨100, fun l => min_le_right l 100⟩, ⟨100, fun l => min_le_right l 100⟩,
    fun l o => ⟨rfl, rfl, rfl, rfl⟩,
    fun l => ⟨min_le_right l 100, fun h => min_eq_left h⟩,
    fun l o => ⟨min_le_right l 100, rfl⟩⟩

/-- C6 witness: a client limit below the cap reaches the store unchanged on
the recent events handler. -/
theorem C6_limit_caps_w : (recent_events_call 50).limit = 50 :=
  (C6_limit_caps.2.2.2.1 50).2 (by decide)

end Antsol
